import Mathlib

/-!
Verification of the go-md2man roff renderer (md2man/roff.go) against its
natural-language specification.

The embedding models bytes as `Nat` (ASCII codes), the markdown AST as a
tree of typed nodes, and the stateful AST-to-roff transducer `RenderNode`
as a state-passing function.  The depth-first traversal that drives the
transducer belongs to the external markdown parser; it is modelled from
the specification (see `walkNode`).  Faults of the Go code (nil-pointer
dereferences, out-of-range slicing) are modelled by `Option`: a `none`
result means the corresponding Go code panics.
-/

/-- Node types of the markdown AST, per the taxonomy the renderer handles. -/
inductive NodeType where
  | Text | Softbreak | Hardbreak | Emph | Strong | Link | Image | Code
  | Document | Paragraph | BlockQuote | Heading | HorizontalRule
  | List | Item | CodeBlock
  | Table | TableCell | TableHead | TableBody | TableRow
  deriving DecidableEq, Repr

/-- Payload of one AST node: the fields of blackfriday nodes that roff.go
reads (`Type`, `Literal`, `Level`, `ListFlags`, `IsHeader`,
`LinkData.Destination`).  Bytes are ASCII codes as `Nat`. -/
structure NodeData where
  nodeType : NodeType
  Literal : List Nat
  Level : Nat
  ListFlags : Nat
  IsHeader : Bool
  Destination : List Nat
  deriving DecidableEq, Repr

/-- An AST node: payload plus ordered children. -/
inductive Node where
  | mk (data : NodeData) (children : List Node)

def Node.data : Node → NodeData
  | .mk d _ => d

def Node.children : Node → List Node
  | .mk _ cs => cs

def Node.nodeType (n : Node) : NodeType := n.data.nodeType

/-- Traversal directives returned by a visitor, per the traversal contract:
continue depth-first, skip the children, or terminate the traversal. -/
inductive WalkStatus where
  | GoToNext | SkipChildren | Terminate
  deriving DecidableEq, Repr

/-- Modelled from the spec: the node kinds the external traversal treats as
containers.  A container is visited at both the entering and the leaving
edge; a leaf is visited once, matching the per-type emission table of the
spec where leaf types have no leaving emission. -/
def isContainer : NodeType → Bool
  | .Document | .BlockQuote | .List | .Item | .Paragraph | .Heading
  | .Emph | .Strong | .Link | .Image
  | .Table | .TableHead | .TableBody | .TableRow | .TableCell => true
  | _ => false

/-- A visitor: given the accumulated state, the node, the entering flag and
the types of the parent and previous sibling (absent for roots and first
children), produce new state, emitted bytes and a traversal directive, or
fault (`none`). -/
def Visitor (σ : Type) : Type :=
  σ → Node → Bool → Option NodeType → Option NodeType →
    Option (σ × List Nat × WalkStatus)

mutual
/-- Modelled from the spec: the depth-first traversal of the external
markdown parser that drives the transducer — visit the node entering, then
(on GoToNext) its children in order, then (for containers) the node
leaving.  SkipChildren skips the subtree including the leaving visit;
Terminate aborts the whole traversal (third component `true`). -/
def walkNode {σ : Type} (v : Visitor σ) (s : σ) (n : Node)
    (parentTy prevTy : Option NodeType) : Option (σ × List Nat × Bool) :=
  match n with
  | .mk d cs =>
    match v s (.mk d cs) true parentTy prevTy with
    | none => none
    | some (s1, o1, .Terminate) => some (s1, o1, true)
    | some (s1, o1, .SkipChildren) => some (s1, o1, false)
    | some (s1, o1, .GoToNext) =>
      match walkKids v s1 cs d.nodeType none with
      | none => none
      | some (s2, o2, true) => some (s2, o1 ++ o2, true)
      | some (s2, o2, false) =>
        if isContainer d.nodeType then
          match v s2 (.mk d cs) false parentTy prevTy with
          | none => none
          | some (s3, o3, st) =>
            some (s3, o1 ++ o2 ++ o3,
              match st with | .Terminate => true | _ => false)
        else some (s2, o1 ++ o2, false)

/-- Walk a list of siblings, threading the previous-sibling type. -/
def walkKids {σ : Type} (v : Visitor σ) (s : σ) (ns : List Node)
    (parentTy : NodeType) (prevTy : Option NodeType) :
    Option (σ × List Nat × Bool) :=
  match ns with
  | [] => some (s, [], false)
  | c :: rest =>
    match walkNode v s c (some parentTy) prevTy with
    | none => none
    | some (s1, o1, true) => some (s1, o1, true)
    | some (s1, o1, false) =>
      match walkKids v s1 rest parentTy (some c.nodeType) with
      | none => none
      | some (s2, o2, b) => some (s2, o1 ++ o2, b)
end

/-- Go constant titleHeader = ".TH ". -/
def titleHeader : List Nat := [46, 84, 72, 32]

/-- Go constant topLevelHeader (a backslash-n pair, then newline ".SH "):
two newlines then ".SH ". -/
def topLevelHeader : List Nat := [10, 10, 46, 83, 72, 32]

/-- Go constant secondLevelHdr: newline then ".SH ". -/
def secondLevelHdr : List Nat := [10, 46, 83, 72, 32]

/-- Go constant otherHeader: newline then ".SS ". -/
def otherHeader : List Nat := [10, 46, 83, 83, 32]

/-- Go constant crTag: one newline. -/
def crTag : List Nat := [10]

/-- Go constant emphTag: backslash f I. -/
def emphTag : List Nat := [92, 102, 73]

/-- Go constant emphCloseTag: backslash f P. -/
def emphCloseTag : List Nat := [92, 102, 80]

/-- Go constant strongTag: backslash f B. -/
def strongTag : List Nat := [92, 102, 66]

/-- Go constant strongCloseTag: backslash f P. -/
def strongCloseTag : List Nat := [92, 102, 80]

/-- Go constant breakTag: newline ".br" newline. -/
def breakTag : List Nat := [10, 46, 98, 114, 10]

/-- Go constant paraTag: newline ".PP" newline. -/
def paraTag : List Nat := [10, 46, 80, 80, 10]

/-- Go constant hruleTag: newline ".ti 0" newline, backslash l,
apostrophe, backslash n, "(.lu", apostrophe, newline. -/
def hruleTag : List Nat :=
  [10, 46, 116, 105, 32, 48, 10, 92, 108, 39, 92, 110, 40, 46, 108, 117, 39, 10]

/-- Go constant linkTag: newline, backslash, "[la]". -/
def linkTag : List Nat := [10, 92, 91, 108, 97, 93]

/-- Go constant linkCloseTag: backslash, "[ra]". -/
def linkCloseTag : List Nat := [92, 91, 114, 97, 93]

/-- Go constant codespanTag: backslash f B backslash f C. -/
def codespanTag : List Nat := [92, 102, 66, 92, 102, 67]

/-- Go constant codespanCloseTag: backslash f R. -/
def codespanCloseTag : List Nat := [92, 102, 82]

/-- Go constant codeTag: newline ".PP" newline ".RS" newline newline ".nf" newline. -/
def codeTag : List Nat := [10, 46, 80, 80, 10, 46, 82, 83, 10, 10, 46, 110, 102, 10]

/-- Go constant codeCloseTag: newline ".fi" newline ".RE" newline. -/
def codeCloseTag : List Nat := [10, 46, 102, 105, 10, 46, 82, 69, 10]

/-- Go constant quoteTag: newline ".PP" newline ".RS" newline. -/
def quoteTag : List Nat := [10, 46, 80, 80, 10, 46, 82, 83, 10]

/-- Go constant quoteCloseTag: newline ".RE" newline. -/
def quoteCloseTag : List Nat := [10, 46, 82, 69, 10]

/-- Go constant listTag: newline ".RS" newline. -/
def listTag : List Nat := [10, 46, 82, 83, 10]

/-- Go constant listCloseTag: newline ".RE" newline. -/
def listCloseTag : List Nat := [10, 46, 82, 69, 10]

/-- Go constant arglistTag: newline ".TP" newline. -/
def arglistTag : List Nat := [10, 46, 84, 80, 10]

/-- Go constant tableStart: newline ".TS" newline "allbox;" newline. -/
def tableStart : List Nat := [10, 46, 84, 83, 10, 97, 108, 108, 98, 111, 120, 59, 10]

/-- Go constant tableEnd: newline ".TE" newline. -/
def tableEnd : List Nat := [10, 46, 84, 69, 10]

/-- Go constant tableCellStart: newline "T", open brace, newline. -/
def tableCellStart : List Nat := [10, 84, 123, 10]

/-- Go constant tableCellEnd: newline "T", close brace, newline. -/
def tableCellEnd : List Nat := [10, 84, 125, 10]

/-- The unordered item marker, Go literal ".IP " backslash "(bu 2" newline. -/
def bulletTag : List Nat := [46, 73, 80, 32, 92, 40, 98, 117, 32, 50, 10]

/-- blackfriday ListTypeOrdered flag bit. -/
def ListTypeOrdered : Nat := 1

/-- blackfriday ListTypeDefinition flag bit. -/
def ListTypeDefinition : Nat := 2

/-- needsBackslash from roff.go: true for the bytes of "-_&", backslash
and "~" (ASCII 45, 95, 38, 92, 126). -/
def needsBackslash (c : Nat) : Bool :=
  ([45, 95, 38, 92, 126] : List Nat).any (fun r => c == r)

/-- The first-byte test of escapeSpecialChars: Go
`len(text) >= 1 and (text[0] == apostrophe or text[0] == period)`
(ASCII 39 and 46). -/
def leadByte : List Nat → Bool
  | [] => false
  | c :: _ => c == 39 || c == 46

/-- The escapeSpecialChars loop of roff.go.  Each outer Go iteration
first emits the zero-width escape (backslash, ampersand = [92, 38]) when
the lead test held on the ORIGINAL input, then copies the run of bytes
not needing a backslash, then escapes one byte and starts the next
iteration.  Here the run copy is unrolled byte by byte: atStart is true
exactly at the start of an outer Go iteration, that is at the start of
the input and immediately after an escaped byte, which is where the loop
re-emits the zero-width escape (it does so only when at least one byte
remains, matching the loop condition checked before the emission). -/
def escapeFrom (lead : Bool) : Bool → List Nat → List Nat
  | _, [] => []
  | atStart, c :: r =>
    (if lead && atStart then [92, 38] else []) ++
      (if needsBackslash c then 92 :: c :: escapeFrom lead true r
       else c :: escapeFrom lead false r)

/-- escapeSpecialChars from roff.go, as a function from the input bytes to
the written bytes. -/
def escapeSpecialChars (text : List Nat) : List Nat :=
  escapeFrom (leadByte text) true text

/-- Renderer state of roffRenderer: the ordered-list counter stack, the
first-heading flag, the definition-term flag and the inside-list flag.
Counters are Go ints incremented at most once per item; sizes reachable
from real documents never overflow, so they are modelled as Nat. -/
structure roffRenderer where
  ListCounters : List Nat
  firstHeader : Bool
  defineTerm : Bool
  inList : Bool
  deriving DecidableEq, Repr

/-- The zero-valued renderer NewRoffRenderer returns (extension flags are
configuration for the external parser and are not modelled). -/
def newRoffRenderer : roffRenderer :=
  { ListCounters := [], firstHeader := false, defineTerm := false, inList := false }

/-- Decimal digits (ASCII) of a natural number, most significant first. -/
def natDec (n : Nat) : List Nat :=
  if h : n < 10 then [48 + n]
  else natDec (n / 10) ++ [48 + n % 10]
decreasing_by
  exact Nat.div_lt_self (by omega) (by omega)

/-- Go fmt %3d: decimal digits right-justified in a field of width 3,
padded with spaces. -/
def pad3 (n : Nat) : List Nat :=
  List.replicate (3 - (natDec n).length) 32 ++ natDec n

/-- The ordered item marker fmt.Sprintf of roff.go:
".IP ", double quote, %3d of the counter, ".", double quote, " 5", newline. -/
def ipOrdered (n : Nat) : List Nat :=
  [46, 73, 80, 32, 34] ++ pad3 n ++ [46, 34, 32, 53, 10]

/-- The visitor of countColumns.  On a TableRow the Go switch returns
Terminate when leaving; when entering, the case body falls through the
switch to the trailing return Terminate, so both edges yield Terminate.
On a TableCell the counter is incremented and the trailing return
Terminate is reached as well.  Any other type returns GoToNext. -/
def countVisitor : Visitor Nat := fun cols node entering _ _ =>
  match node.nodeType with
  | .TableRow =>
    if entering = false then some (cols, [], .Terminate)
    else some (cols, [], .Terminate)
  | .TableCell => some (cols + 1, [], .Terminate)
  | _ => some (cols, [], .GoToNext)

/-- countColumns from roff.go: walk the table subtree with countVisitor
and return the accumulated count.  The visitor never faults, so the none
branch is unreachable. -/
def countColumns (node : Node) : Nat :=
  match walkNode countVisitor 0 node none none with
  | some (c, _, _) => c
  | none => 0

/-- RenderNode of roffRenderer, one visit event.  The parent and previous
sibling types stand for the Go pointer fields node.Parent and node.Prev;
where the Go code dereferences them without a nil check (Text reads
node.Parent.Type, TableCell reads node.Prev.Type), an absent pointer
makes the result none, modelling the nil-pointer panic.  Likewise the
ordered-list pop and counter lookup index ListCounters without an
emptiness check, so an empty stack there is none. -/
def RenderNode (r : roffRenderer) (node : Node) (entering : Bool)
    (parentTy prevTy : Option NodeType) :
    Option (roffRenderer × List Nat × WalkStatus) :=
  match node.nodeType with
  | .Text =>
    match parentTy with
    | none => none
    | some pty =>
      if pty = .TableCell ∧ node.data.Literal.length > 30 then
        some (r, tableCellStart ++ escapeSpecialChars node.data.Literal ++
          tableCellEnd, .GoToNext)
      else some (r, escapeSpecialChars node.data.Literal, .GoToNext)
  | .Softbreak => some (r, crTag, .GoToNext)
  | .Hardbreak => some (r, breakTag, .GoToNext)
  | .Emph =>
    some (r, if entering then emphTag else emphCloseTag, .GoToNext)
  | .Strong =>
    some (r, if entering then strongTag else strongCloseTag, .GoToNext)
  | .Link =>
    some (r, if entering then linkTag ++ node.data.Destination
      else linkCloseTag, .GoToNext)
  | .Image => some (r, [], .SkipChildren)
  | .Code =>
    some (r, codespanTag ++ escapeSpecialChars node.data.Literal ++
      codespanCloseTag, .GoToNext)
  | .Document => some (r, [], .GoToNext)
  | .Paragraph =>
    if r.inList then some (r, [], .GoToNext)
    else some (r, if entering then paraTag else crTag, .GoToNext)
  | .BlockQuote =>
    some (r, if entering then quoteTag else quoteCloseTag, .GoToNext)
  | .Heading =>
    if entering then
      match node.data.Level with
      | 1 =>
        if r.firstHeader = false then
          some ({ r with firstHeader := true }, titleHeader, .GoToNext)
        else some (r, topLevelHeader, .GoToNext)
      | 2 => some (r, secondLevelHdr, .GoToNext)
      | _ => some (r, otherHeader, .GoToNext)
    else some (r, [], .GoToNext)
  | .HorizontalRule => some (r, hruleTag, .GoToNext)
  | .List =>
    let defn := node.data.ListFlags.land ListTypeDefinition ≠ 0
    let openTag := if defn then [] else listTag
    let closeTag := if defn then [] else listCloseTag
    if entering then
      if node.data.ListFlags.land ListTypeOrdered ≠ 0 then
        some ({ r with inList := true, ListCounters := r.ListCounters ++ [1] },
          openTag, .GoToNext)
      else some ({ r with inList := true }, openTag, .GoToNext)
    else
      if node.data.ListFlags.land ListTypeOrdered ≠ 0 then
        match r.ListCounters with
        | [] => none
        | _ :: _ =>
          some ({ r with inList := false, ListCounters := r.ListCounters.dropLast },
            closeTag, .GoToNext)
      else some ({ r with inList := false }, closeTag, .GoToNext)
  | .Item =>
    if entering then
      if node.data.ListFlags.land ListTypeOrdered ≠ 0 then
        match r.ListCounters.getLast? with
        | none => none
        | some c =>
          some ({ r with ListCounters := r.ListCounters.dropLast ++ [c + 1] },
            ipOrdered c, .GoToNext)
      else if node.data.ListFlags.land ListTypeDefinition ≠ 0 then
        if r.defineTerm = false then
          some ({ r with defineTerm := true }, arglistTag, .GoToNext)
        else some ({ r with defineTerm := false }, [], .GoToNext)
      else some (r, bulletTag, .GoToNext)
    else some (r, crTag, .GoToNext)
  | .CodeBlock =>
    some (r, codeTag ++ escapeSpecialChars node.data.Literal ++
      codeCloseTag, .GoToNext)
  | .Table =>
    if entering then
      some (r, tableStart ++
        ((List.replicate (countColumns node) ([108, 32] : List Nat)).flatten ++ [10]) ++
        ((List.replicate (countColumns node) ([108, 32] : List Nat)).flatten ++ [46, 10]),
        .GoToNext)
    else some (r, tableEnd, .GoToNext)
  | .TableCell =>
    let start := if node.data.IsHeader then codespanTag else []
    if entering then
      match prevTy with
      | none => none
      | some pt =>
        if pt = .TableCell then some (r, [9] ++ start, .GoToNext)
        else some (r, [], .GoToNext)
    else
      some (r, if node.data.IsHeader then codespanCloseTag else [], .GoToNext)
  | .TableHead => some (r, [], .GoToNext)
  | .TableBody => some (r, [], .GoToNext)
  | .TableRow => some (r, crTag, .GoToNext)

/-- RenderNode packaged as the visitor of the main traversal. -/
def renderVisitor : Visitor roffRenderer := fun r n e p q => RenderNode r n e p q

/-- One full render of an AST from the fresh renderer state. -/
def renderDocument (n : Node) : Option (roffRenderer × List Nat × Bool) :=
  walkNode renderVisitor newRoffRenderer n none none

/-- The bytes a full render writes, none when the render faults. -/
def renderOutput (n : Node) : Option (List Nat) :=
  match renderDocument n with
  | some (_, o, _) => some o
  | none => none

/-- The canonical one-pass escape: every byte of the escape set is
replaced by backslash plus the byte, everything else copied. -/
def escapeAll (text : List Nat) : List Nat :=
  (text.map (fun c => if needsBackslash c then [92, c] else [c])).flatten

/-- Helper: with the lead test false, the loop is exactly the canonical
escape, whatever the iteration point. -/
theorem escapeFrom_false_eq (t : List Nat) :
    ∀ (b : Bool), escapeFrom false b t = escapeAll t := by
  induction t with
  | nil => intro b; rfl
  | cons c r ih =>
    intro b
    by_cases hc : needsBackslash c = true
    · have h := ih true
      simp only [escapeAll] at h ⊢
      simp [escapeFrom, hc, h]
    · simp only [Bool.not_eq_true] at hc
      have h := ih false
      simp only [escapeAll] at h ⊢
      simp [escapeFrom, hc, h]

/-- Helper: the canonical escape is the identity on inputs without
escape-set bytes. -/
theorem escapeAll_id (t : List Nat)
    (h : ∀ c ∈ t, needsBackslash c = false) : escapeAll t = t := by
  induction t with
  | nil => rfl
  | cons c r ih =>
    have hc := h c (by simp)
    simp only [escapeAll] at ih ⊢
    simp [hc]
    exact ih (fun x hx => h x (by simp [hx]))

/-- Output tokens for stating the escaping contract: a literal byte or a
byte preceded by exactly one backslash. -/
inductive EscTok where
  | lit (c : Nat)
  | esc (c : Nat)
  deriving DecidableEq, Repr

/-- Bytes of one token. -/
def renderTok : EscTok → List Nat
  | .lit c => [c]
  | .esc c => [92, c]

/-- Bytes of a token sequence. -/
def renderToks (ts : List EscTok) : List Nat := (ts.map renderTok).flatten

/-- A token is well formed when exactly the escape-set bytes are escaped
and no escape-set byte (in particular no backslash) occurs as a literal. -/
def wfTok : EscTok → Bool
  | .lit c => !needsBackslash c
  | .esc c => needsBackslash c

/-- The canonical tokenization of an input: each byte of the escape set
becomes one escaped token, every other byte one literal token. -/
def canonToks (text : List Nat) : List EscTok :=
  text.map (fun c => if needsBackslash c then .esc c else .lit c)

/-- AmpIns l ts: ts arises from l by inserting zero-width escapes
(escaped-ampersand tokens, bytes [92, 38]) at arbitrary positions. -/
inductive AmpIns : List EscTok → List EscTok → Prop where
  | nil : AmpIns [] []
  | cons (t : EscTok) {l l' : List EscTok} :
      AmpIns l l' → AmpIns (t :: l) (t :: l')
  | amp {l l' : List EscTok} : AmpIns l l' → AmpIns l (.esc 38 :: l')

/-- Helper: renderToks distributes over cons. -/
theorem renderToks_cons (t : EscTok) (ts : List EscTok) :
    renderToks (t :: ts) = renderTok t ++ renderToks ts := by
  simp [renderToks]

/-- Helper: the loop output is a canonical tokenization of the input with
zero-width escapes inserted, for either value of the lead flag. -/
theorem escapeFrom_toks (lead : Bool) (t : List Nat) :
    ∀ (b : Bool), ∃ ts : List EscTok,
      AmpIns (canonToks t) ts ∧ ts.all wfTok = true ∧
        renderToks ts = escapeFrom lead b t := by
  induction t with
  | nil => exact fun b => ⟨[], .nil, rfl, rfl⟩
  | cons c r ih =>
    intro b
    by_cases hc : needsBackslash c = true
    · obtain ⟨ts1, h1, h2, h3⟩ := ih true
      by_cases hb : (lead && b) = true
      · refine ⟨.esc 38 :: .esc c :: ts1, ?_, ?_, ?_⟩
        · simpa [canonToks, hc] using AmpIns.amp (AmpIns.cons (EscTok.esc c) h1)
        · simp [List.all_cons, wfTok, hc, h2] <;> decide
        · simp [renderToks_cons, renderTok, h3, escapeFrom, hb, hc]
      · refine ⟨.esc c :: ts1, ?_, ?_, ?_⟩
        · simpa [canonToks, hc] using AmpIns.cons (EscTok.esc c) h1
        · simp [List.all_cons, wfTok, hc, h2]
        · simp [renderToks_cons, renderTok, h3, escapeFrom, hb, hc]
    · obtain ⟨ts1, h1, h2, h3⟩ := ih false
      simp only [Bool.not_eq_true] at hc
      by_cases hb : (lead && b) = true
      · refine ⟨.esc 38 :: .lit c :: ts1, ?_, ?_, ?_⟩
        · simpa [canonToks, hc] using AmpIns.amp (AmpIns.cons (EscTok.lit c) h1)
        · simp [List.all_cons, wfTok, hc, h2] <;> decide
        · simp [renderToks_cons, renderTok, h3, escapeFrom, hb, hc]
      · refine ⟨.lit c :: ts1, ?_, ?_, ?_⟩
        · simpa [canonToks, hc] using AmpIns.cons (EscTok.lit c) h1
        · simp [List.all_cons, wfTok, hc, h2]
        · simp [renderToks_cons, renderTok, h3, escapeFrom, hb, hc]

/-- C7: for every input byte sequence, the escaped output is a canonical
tokenization of the input — each occurrence of an escape-set byte
(minus, underscore, ampersand, backslash, tilde) becomes one token of
exactly one backslash followed by that byte, every other input byte
becomes one unescaped literal token (so exactly those five byte values
are backslash-escaped and nothing is double-escaped) — with zero-width
escape pairs [92, 38] possibly inserted between tokens. -/
theorem escape_each_special_once (text : List Nat) :
    ∃ ts : List EscTok, AmpIns (canonToks text) ts ∧ ts.all wfTok = true ∧
      renderToks ts = escapeSpecialChars text :=
  escapeFrom_toks (leadByte text) text true

/-- C2 counterexample: on input period, minus, a (bytes [46, 45, 97]) the
zero-width escape prefix [92, 38] appears a second time at position 5 of
the output, not only immediately before any other output as the claim
states. -/
theorem escape_amp_repeats_cex :
    escapeSpecialChars [46, 45, 97] = [92, 38, 46, 92, 45, 92, 38, 97] ∧
      List.take 2 (List.drop 5 (escapeSpecialChars [46, 45, 97])) = [92, 38] := by
  constructor
  · rfl
  · rfl

/-- C2 amended: for inputs whose first byte is an apostrophe (39) or a
period (46) the escaped output begins with the zero-width escape prefix
[92, 38] before any other output (the loop may re-emit the prefix after
each escaped byte); for inputs whose first byte is neither, the output is
exactly the canonical escape, which contains no inserted prefix. -/
theorem escape_amp_lead :
    (∀ (c : Nat) (rest : List Nat), c = 39 ∨ c = 46 →
        List.take 2 (escapeSpecialChars (c :: rest)) = [92, 38]) ∧
    (∀ t : List Nat, leadByte t = false → escapeSpecialChars t = escapeAll t) := by
  constructor
  · intro c rest hc
    have hlead : leadByte (c :: rest) = true := by
      rcases hc with h | h <;> simp [leadByte, h]
    rw [escapeSpecialChars, hlead]
    by_cases hb : needsBackslash c = true <;>
      simp [escapeFrom, hb]
  · intro t ht
    rw [escapeSpecialChars, ht, escapeFrom_false_eq]

/-- C2 witness: both parts of the amended statement at concrete inputs. -/
theorem escape_amp_lead_witness :
    List.take 2 (escapeSpecialChars [46, 97]) = [92, 38] ∧
      escapeSpecialChars [97] = escapeAll [97] :=
  ⟨escape_amp_lead.1 46 [97] (Or.inr rfl), escape_amp_lead.2 [97] (by decide)⟩

/-- C6 counterexample: the input consisting of the single byte period
(46) contains no escape-set byte, yet escaping is not the identity on it:
the output carries the zero-width escape prefix. -/
theorem escape_dot_not_identity_cex :
    (∀ c ∈ ([46] : List Nat), needsBackslash c = false) ∧
      escapeSpecialChars [46] = [92, 38, 46] ∧
      escapeSpecialChars [46] ≠ [46] := by
  refine ⟨by decide, rfl, by decide⟩

/-- C6 amended: escaping is the identity on every input that contains no
escape-set byte AND whose first byte is not an apostrophe or period
(leadByte false); the zero-width prefix rule breaks the identity on
period- or apostrophe-leading inputs. -/
theorem escape_identity_no_specials (t : List Nat)
    (h : ∀ c ∈ t, needsBackslash c = false) (hl : leadByte t = false) :
    escapeSpecialChars t = t := by
  rw [escapeSpecialChars, hl, escapeFrom_false_eq, escapeAll_id t h]

/-- C6 witness: the amended identity at the concrete input "abc". -/
theorem escape_identity_no_specials_witness :
    (∀ c ∈ ([97, 98, 99] : List Nat), needsBackslash c = false) ∧
      leadByte [97, 98, 99] = false ∧
      escapeSpecialChars [97, 98, 99] = [97, 98, 99] :=
  ⟨by decide, by decide,
    escape_identity_no_specials [97, 98, 99] (by decide) (by decide)⟩

/-- A text leaf with the given literal bytes. -/
def textN (lit : List Nat) : Node := .mk ⟨.Text, lit, 0, 0, false, []⟩ []

/-- A table cell (header flag as given) with the given children. -/
def cellN (hdr : Bool) (kids : List Node) : Node :=
  .mk ⟨.TableCell, [], 0, 0, hdr, []⟩ kids

/-- A table row. -/
def rowN (kids : List Node) : Node := .mk ⟨.TableRow, [], 0, 0, false, []⟩ kids

/-- A table head section. -/
def theadN (kids : List Node) : Node := .mk ⟨.TableHead, [], 0, 0, false, []⟩ kids

/-- A table body section. -/
def tbodyN (kids : List Node) : Node := .mk ⟨.TableBody, [], 0, 0, false, []⟩ kids

/-- A table. -/
def tableN (kids : List Node) : Node := .mk ⟨.Table, [], 0, 0, false, []⟩ kids

/-- A document root. -/
def docN (kids : List Node) : Node := .mk ⟨.Document, [], 0, 0, false, []⟩ kids

/-- An unordered list item (no list flags). -/
def itemU (kids : List Node) : Node := .mk ⟨.Item, [], 0, 0, false, []⟩ kids

/-- An unordered list (no list flags). -/
def listU (kids : List Node) : Node := .mk ⟨.List, [], 0, 0, false, []⟩ kids

/-- A paragraph. -/
def paraN (kids : List Node) : Node := .mk ⟨.Paragraph, [], 0, 0, false, []⟩ kids

/-- An ordered list item (ListTypeOrdered flag). -/
def itemO (kids : List Node) : Node :=
  .mk ⟨.Item, [], 0, ListTypeOrdered, false, []⟩ kids

/-- An ordered list (ListTypeOrdered flag). -/
def listO (kids : List Node) : Node :=
  .mk ⟨.List, [], 0, ListTypeOrdered, false, []⟩ kids

/-- A definition list item (ListTypeDefinition flag). -/
def itemD (kids : List Node) : Node :=
  .mk ⟨.Item, [], 0, ListTypeDefinition, false, []⟩ kids

/-- A definition list (ListTypeDefinition flag). -/
def listD (kids : List Node) : Node :=
  .mk ⟨.List, [], 0, ListTypeDefinition, false, []⟩ kids

/-- A level-1 heading over a text literal. -/
def h1 (t : List Nat) : Node := .mk ⟨.Heading, [], 1, 0, false, []⟩ [textN t]

/-- A 2-column, 2-row table: a header row of cells "a", "b" and a body
row of cells "c", "d". -/
def table22 : Node :=
  tableN [theadN [rowN [cellN true [textN [97]], cellN true [textN [98]]]],
          tbodyN [rowN [cellN false [textN [99]], cellN false [textN [100]]]]]

/-- C1: code bug.  On a table whose first row has 2 cells, countColumns
returns 0, not 2: its walk reaches the first TableRow at the entering
edge, where the Go switch falls through to the trailing return Terminate
and aborts the whole sub-traversal before any cell is counted.  The
Table entering emission therefore writes the two column-format lines
with zero left-justified "l " specifiers instead of 2. -/
theorem countColumns_zero_bug :
    countColumns table22 = 0 ∧
      RenderNode newRoffRenderer table22 true (some .Document) none =
        some (newRoffRenderer, tableStart ++ [10] ++ [46, 10], .GoToNext) := by
  constructor
  · rfl
  · rfl

/-- C3: code bug.  On entering the first table cell of a row — which has
no previous sibling — RenderNode reads node.Prev.Type without a nil
check, so rendering faults (none) instead of proceeding: both for the
single visit event and for a whole-document render containing a
one-cell table. -/
theorem tableCell_prev_nil_fault :
    RenderNode newRoffRenderer (cellN false [textN [97]]) true
        (some .TableRow) none = none ∧
      renderDocument (docN [tableN [tbodyN [rowN [cellN false [textN [97]]]]]]) =
        none := by
  constructor
  · rfl
  · rfl

/-- C4: code bug.  In a document with an outer unordered list whose item
holds a nested unordered list followed by a paragraph, leaving the inner
list sets the single inList boolean to false although the outer list is
still open, so the paragraph emits the paragraph-break marker paraTag
(".PP") inside the outer list — the first conjunct shows paraTag between
the inner list close and the outer list close.  The second conjunct
shows the intended suppression in the un-nested case: a paragraph
directly inside a single list emits no marker. -/
theorem nested_list_paragraph_break_bug :
    renderOutput (docN [listU [itemU [listU [itemU [textN [97]]],
        paraN [textN [98]]]]]) =
      some (listTag ++ bulletTag ++ listTag ++ bulletTag ++ [97] ++ [10] ++
        listCloseTag ++ paraTag ++ [98] ++ [10] ++ [10] ++ listCloseTag) ∧
    renderOutput (docN [listU [itemU [paraN [textN [97]]]]]) =
      some (listTag ++ bulletTag ++ [97] ++ [10] ++ listCloseTag) := by
  constructor
  · rfl
  · rfl

/-- C5: code bug.  For the first header cell of a row the claimed
code-style wrapping never happens: rendering faults on the nil previous
sibling (first conjunct, the header table of table22).  For a header
cell that is not first in its row, the tab separator and the code-style
start marker are emitted on entering and the close marker on leaving
(second and third conjuncts), but the start marker is emitted only in
that branch, so first cells would not be wrapped even without the
fault. -/
theorem header_cell_wrap_bug :
    renderDocument (docN [table22]) = none ∧
      RenderNode newRoffRenderer (cellN true []) true
        (some .TableRow) (some .TableCell) =
        some (newRoffRenderer, [9] ++ codespanTag, .GoToNext) ∧
      RenderNode newRoffRenderer (cellN true []) false
        (some .TableRow) (some .TableCell) =
        some (newRoffRenderer, codespanCloseTag, .GoToNext) := by
  refine ⟨?_, ?_, ?_⟩
  · rfl
  · rfl
  · rfl

/-- Helper: the ordered flag bit meets itself. -/
theorem land_oo : Nat.land ListTypeOrdered ListTypeOrdered ≠ 0 := by decide

/-- Helper: the ordered flag bit is disjoint from the definition bit. -/
theorem land_od : Nat.land ListTypeOrdered ListTypeDefinition = 0 := by decide

/-- Helper: the definition flag bit is disjoint from the ordered bit. -/
theorem land_do : Nat.land ListTypeDefinition ListTypeOrdered = 0 := by decide

/-- Helper: the definition flag bit meets itself. -/
theorem land_dd : Nat.land ListTypeDefinition ListTypeDefinition ≠ 0 := by decide

/-- Helper: dropping the last element of a nonempty snoc form. -/
theorem dropLast_cons_app (a x : Nat) (as : List Nat) :
    (a :: (as ++ [x])).dropLast = a :: as := by
  rw [← List.cons_append, List.dropLast_concat]

/-- An ordered item holding one text literal. -/
def oTextItem (l : List Nat) : Node := itemO [textN l]

/-- A definition item holding one text literal. -/
def dTextItem (l : List Nat) : Node := itemD [textN l]

/-- Helper: the node type of dTextItem. -/
theorem dTextItem_ty (l : List Nat) : (dTextItem l).nodeType = NodeType.Item := rfl

/-- Helper: the node type of h1. -/
theorem h1_ty (t : List Nat) : (h1 t).nodeType = NodeType.Heading := rfl

/-- Expected emission of ordered text items numbered c, c+1, and so on:
for each item its marker with the current ordinal, its escaped literal
and the closing newline. -/
def itemsOutO (c : Nat) : List (List Nat) → List Nat
  | [] => []
  | l :: ls => ipOrdered c ++ escapeSpecialChars l ++ crTag ++ itemsOutO (c + 1) ls

/-- Walking one ordered text item from a counter stack ending in c emits
the marker for c, the escaped literal, a newline, and bumps c. -/
theorem walk_oTextItem (cs : List Nat) (c : Nat) (fh dt il : Bool)
    (l : List Nat) (pv : Option NodeType) :
    walkNode renderVisitor ⟨cs ++ [c], fh, dt, il⟩ (oTextItem l)
        (some .List) pv =
      some (⟨cs ++ [c + 1], fh, dt, il⟩,
        ipOrdered c ++ escapeSpecialChars l ++ crTag, false) := by
  simp [oTextItem, walkNode, walkKids, renderVisitor, RenderNode, itemO, textN,
    Node.nodeType, Node.data, isContainer, land_oo,
    List.getLast?_concat, List.dropLast_concat]

/-- Walking a row of ordered text items emits consecutive ordinals. -/
theorem walkKids_oItems (lits : List (List Nat)) :
    ∀ (cs : List Nat) (c : Nat) (fh dt il : Bool) (pv : Option NodeType),
    walkKids renderVisitor ⟨cs ++ [c], fh, dt, il⟩ (lits.map oTextItem) .List pv =
      some (⟨cs ++ [c + lits.length], fh, dt, il⟩, itemsOutO c lits, false) := by
  induction lits with
  | nil => intro cs c fh dt il pv; simp [walkKids, itemsOutO]
  | cons l ls ih =>
    intro cs c fh dt il pv
    have hc : c + 1 + ls.length = c + (l :: ls).length := by
      simp only [List.length_cons]
      omega
    have hih := ih cs (c + 1) fh dt il (some NodeType.Item)
    rw [hc] at hih
    simp only [List.map_cons, walkKids, itemsOutO]
    simp [walk_oTextItem, show (oTextItem l).nodeType = NodeType.Item from rfl, hih]

/-- Entering an ordered list pushes a fresh counter 1 and emits listTag. -/
theorem rn_listO_enter (cs : List Nat) (fh dt il : Bool)
    (kids : List Node) (pt pv : Option NodeType) :
    RenderNode ⟨cs, fh, dt, il⟩
        (.mk ⟨.List, [], 0, ListTypeOrdered, false, []⟩ kids) true pt pv =
      some (⟨cs ++ [1], fh, dt, true⟩, listTag, .GoToNext) := by
  simp [RenderNode, Node.nodeType, Node.data, land_oo, land_od]

/-- Leaving an ordered list pops the innermost counter and emits
listCloseTag. -/
theorem rn_listO_leave (cs : List Nat) (x : Nat) (fh dt il : Bool)
    (kids : List Node) (pt pv : Option NodeType) :
    RenderNode ⟨cs ++ [x], fh, dt, il⟩
        (.mk ⟨.List, [], 0, ListTypeOrdered, false, []⟩ kids) false pt pv =
      some (⟨cs, fh, dt, false⟩, listCloseTag, .GoToNext) := by
  cases cs with
  | nil =>
    simp [RenderNode, Node.nodeType, Node.data, land_oo, land_od]
  | cons a as =>
    simp [RenderNode, Node.nodeType, Node.data, land_oo, land_od,
      dropLast_cons_app]

/-- Composition: walking an ordered list wraps the walk of its children
between counter push plus listTag and counter pop plus listCloseTag. -/
theorem walk_listO_gen (kids : List Node) (cs : List Nat) (fh dt il : Bool)
    (pt pv : Option NodeType) (cs2 : List Nat) (x : Nat) (fh2 dt2 il2 : Bool)
    (o : List Nat)
    (hkids : walkKids renderVisitor ⟨cs ++ [1], fh, dt, true⟩ kids .List none =
      some (⟨cs2 ++ [x], fh2, dt2, il2⟩, o, false)) :
    walkNode renderVisitor ⟨cs, fh, dt, il⟩ (listO kids) pt pv =
      some (⟨cs2, fh2, dt2, false⟩, listTag ++ o ++ listCloseTag, false) := by
  simp only [listO, walkNode]
  simp [renderVisitor, rn_listO_enter, hkids, rn_listO_leave, isContainer,
    Node.nodeType, Node.data]

/-- Walking an ordered list of N text items numbers them 1 to N and
restores the ambient counter stack. -/
theorem walk_listO (lits : List (List Nat)) (cs : List Nat) (fh dt il : Bool)
    (pt pv : Option NodeType) :
    walkNode renderVisitor ⟨cs, fh, dt, il⟩ (listO (lits.map oTextItem)) pt pv =
      some (⟨cs, fh, dt, false⟩,
        listTag ++ itemsOutO 1 lits ++ listCloseTag, false) := by
  exact walk_listO_gen (lits.map oTextItem) cs fh dt il pt pv cs (1 + lits.length)
    fh dt true (itemsOutO 1 lits) (walkKids_oItems lits cs 1 fh dt true none)

/-- Entering an ordered item reads the innermost counter, emits its
marker and increments it. -/
theorem rn_itemO_enter (cs : List Nat) (c : Nat) (fh dt il : Bool)
    (kids : List Node) (pt pv : Option NodeType) :
    RenderNode ⟨cs ++ [c], fh, dt, il⟩
        (.mk ⟨.Item, [], 0, ListTypeOrdered, false, []⟩ kids) true pt pv =
      some (⟨cs ++ [c + 1], fh, dt, il⟩, ipOrdered c, .GoToNext) := by
  simp [RenderNode, Node.nodeType, Node.data, land_oo,
    List.getLast?_concat, List.dropLast_concat]

/-- Leaving any ordered item emits a newline. -/
theorem rn_itemO_leave (r : roffRenderer) (kids : List Node)
    (pt pv : Option NodeType) :
    RenderNode r (.mk ⟨.Item, [], 0, ListTypeOrdered, false, []⟩ kids)
        false pt pv = some (r, crTag, .GoToNext) := by
  simp [RenderNode, Node.nodeType, Node.data]

/-- Composition: walking an ordered item emits its marker, increments the
innermost counter, walks the single child and closes with a newline. -/
theorem walk_itemO_gen (child : Node) (cs : List Nat) (c : Nat)
    (fh dt il : Bool) (pv : Option NodeType) (s2 : roffRenderer) (o : List Nat)
    (hchild : walkNode renderVisitor ⟨cs ++ [c + 1], fh, dt, il⟩ child
        (some .Item) none = some (s2, o, false)) :
    walkNode renderVisitor ⟨cs ++ [c], fh, dt, il⟩ (itemO [child])
        (some .List) pv =
      some (s2, ipOrdered c ++ o ++ crTag, false) := by
  simp only [itemO, walkNode, walkKids]
  simp [renderVisitor, rn_itemO_enter, hchild, rn_itemO_leave, isContainer,
    Node.nodeType, Node.data]

/-- An ordered item holding a nested ordered list: the nested list
numbers its own items from 1 and leaves the outer counter alone. -/
theorem walk_itemO_nested (inner : List (List Nat)) (cs : List Nat) (c : Nat)
    (fh dt il : Bool) (pv : Option NodeType) :
    walkNode renderVisitor ⟨cs ++ [c], fh, dt, il⟩
        (itemO [listO (inner.map oTextItem)]) (some .List) pv =
      some (⟨cs ++ [c + 1], fh, dt, false⟩,
        ipOrdered c ++ (listTag ++ itemsOutO 1 inner ++ listCloseTag) ++ crTag,
        false) := by
  exact walk_itemO_gen (listO (inner.map oTextItem)) cs c fh dt il pv
    ⟨cs ++ [c + 1], fh, dt, false⟩ (listTag ++ itemsOutO 1 inner ++ listCloseTag)
    (walk_listO inner (cs ++ [c + 1]) fh dt il (some .Item) none)

/-- C8: ordered-list numbering.  First conjunct: for every ordered list
of N text items, walked from ANY ambient counter stack cs (so in
particular nested below other ordered lists), the emitted markers carry
the consecutive ordinals 1 .. N (itemsOutO 1) and the final state
restores the ambient stack cs, as the push-on-enter, pop-on-leave
discipline requires.  Second conjunct: a nested ordered list inside the
first item of an outer ordered list numbers its own items from 1 while
the outer list continues 2, 3, ... independently. -/
theorem ordered_list_markers :
    (∀ (lits : List (List Nat)) (cs : List Nat) (fh dt il : Bool)
        (pt pv : Option NodeType),
      walkNode renderVisitor ⟨cs, fh, dt, il⟩ (listO (lits.map oTextItem)) pt pv =
        some (⟨cs, fh, dt, false⟩,
          listTag ++ itemsOutO 1 lits ++ listCloseTag, false)) ∧
    (∀ (inner post : List (List Nat)) (cs : List Nat) (fh dt il : Bool)
        (pt pv : Option NodeType),
      walkNode renderVisitor ⟨cs, fh, dt, il⟩
          (listO (itemO [listO (inner.map oTextItem)] :: post.map oTextItem))
          pt pv =
        some (⟨cs, fh, dt, false⟩,
          listTag ++ (ipOrdered 1 ++
              (listTag ++ itemsOutO 1 inner ++ listCloseTag) ++ crTag ++
            itemsOutO 2 post) ++ listCloseTag, false)) := by
  constructor
  · exact walk_listO
  · intro inner post cs fh dt il pt pv
    have hkids : walkKids renderVisitor ⟨cs ++ [1], fh, dt, true⟩
        (itemO [listO (inner.map oTextItem)] :: post.map oTextItem) .List none =
      some (⟨cs ++ [2 + post.length], fh, dt, false⟩,
        (ipOrdered 1 ++ (listTag ++ itemsOutO 1 inner ++ listCloseTag) ++ crTag) ++
          itemsOutO 2 post, false) := by
      simp only [walkKids]
      rw [walk_itemO_nested inner cs 1 fh dt true none]
      rw [show (itemO [listO (inner.map oTextItem)]).nodeType = NodeType.Item
        from rfl]
      have h2 := walkKids_oItems post cs 2 fh dt false (some NodeType.Item)
      simp [h2]
    have h := walk_listO_gen
      (itemO [listO (inner.map oTextItem)] :: post.map oTextItem)
      cs fh dt il pt pv cs (2 + post.length) fh dt false _ hkids
    simpa [List.append_assoc] using h

/-- Entering a definition list emits nothing and only raises the
inside-list flag; no counter is pushed. -/
theorem rn_listD_enter (cs : List Nat) (fh dt il : Bool)
    (kids : List Node) (pt pv : Option NodeType) :
    RenderNode ⟨cs, fh, dt, il⟩
        (.mk ⟨.List, [], 0, ListTypeDefinition, false, []⟩ kids) true pt pv =
      some (⟨cs, fh, dt, true⟩, [], .GoToNext) := by
  simp [RenderNode, Node.nodeType, Node.data, land_do, land_dd]

/-- Leaving a definition list emits nothing and clears the inside-list
flag; it does NOT reset the defineTerm flag. -/
theorem rn_listD_leave (cs : List Nat) (fh dt il : Bool)
    (kids : List Node) (pt pv : Option NodeType) :
    RenderNode ⟨cs, fh, dt, il⟩
        (.mk ⟨.List, [], 0, ListTypeDefinition, false, []⟩ kids) false pt pv =
      some (⟨cs, fh, dt, false⟩, [], .GoToNext) := by
  simp [RenderNode, Node.nodeType, Node.data, land_do, land_dd]

/-- Composition: a definition list emits no tags of its own; it only
toggles the inside-list flag around the walk of its items. -/
theorem walk_listD_gen (kids : List Node) (cs : List Nat) (fh dt il : Bool)
    (pt pv : Option NodeType) (s2 : roffRenderer) (o : List Nat)
    (hkids : walkKids renderVisitor ⟨cs, fh, dt, true⟩ kids .List none =
      some (s2, o, false)) :
    walkNode renderVisitor ⟨cs, fh, dt, il⟩ (listD kids) pt pv =
      some ({ s2 with inList := false }, o, false) := by
  simp only [listD, walkNode]
  simp [renderVisitor, rn_listD_enter, hkids, rn_listD_leave, isContainer,
    Node.nodeType, Node.data, RenderNode, land_do, land_dd]

/-- Walking a definition item while defineTerm is false emits the
term-introducer arglistTag and raises the flag. -/
theorem walk_dTextItem_term (cs : List Nat) (fh il : Bool) (l : List Nat)
    (pv : Option NodeType) :
    walkNode renderVisitor ⟨cs, fh, false, il⟩ (dTextItem l) (some .List) pv =
      some (⟨cs, fh, true, il⟩,
        arglistTag ++ escapeSpecialChars l ++ crTag, false) := by
  simp [dTextItem, walkNode, walkKids, renderVisitor, RenderNode, itemD, textN,
    Node.nodeType, Node.data, isContainer, land_do, land_dd]

/-- Walking a definition item while defineTerm is true emits no extra
marker and lowers the flag. -/
theorem walk_dTextItem_defn (cs : List Nat) (fh il : Bool) (l : List Nat)
    (pv : Option NodeType) :
    walkNode renderVisitor ⟨cs, fh, true, il⟩ (dTextItem l) (some .List) pv =
      some (⟨cs, fh, false, il⟩, escapeSpecialChars l ++ crTag, false) := by
  simp [dTextItem, walkNode, walkKids, renderVisitor, RenderNode, itemD, textN,
    Node.nodeType, Node.data, isContainer, land_do, land_dd]

/-- C9 counterexample: in a document holding a one-item definition list
followed by a four-item definition list [term1, def1, term2, def2], the
defineTerm flag carried over from the first list makes the second list
mark its items 2 and 4 with the term introducer instead of items 1 and
3, refuting the claim for definition lists preceded by an odd-item
definition list. -/
theorem deflist_carryover_cex :
    renderOutput (docN [listD [dTextItem [120]],
        listD [dTextItem [97], dTextItem [98], dTextItem [99], dTextItem [100]]]) =
      some (arglistTag ++ [120] ++ crTag ++ ([97] ++ crTag) ++
        (arglistTag ++ [98] ++ crTag) ++ ([99] ++ crTag) ++
        (arglistTag ++ [100] ++ crTag)) ∧
    renderOutput (docN [listD [dTextItem [120]],
        listD [dTextItem [97], dTextItem [98], dTextItem [99], dTextItem [100]]]) ≠
      some (arglistTag ++ [120] ++ crTag ++ (arglistTag ++ [97] ++ crTag) ++
        ([98] ++ crTag) ++ (arglistTag ++ [99] ++ crTag) ++
        ([100] ++ crTag)) := by
  constructor
  · rfl
  · decide

/-- C9 amended: for a definition list with items [term1, def1, term2,
def2] entered while the defineTerm flag is FALSE (as at the start of a
render, or after every earlier definition list consumed an even number
of items), items 1 and 3 emit the term-introducer arglistTag and items 2
and 4 emit no extra marker; this holds in any surrounding state and the
final state lowers the inside-list flag with defineTerm false again. -/
theorem deflist_alternation (a b c d : List Nat) (cs : List Nat)
    (fh il : Bool) (pt pv : Option NodeType) :
    walkNode renderVisitor ⟨cs, fh, false, il⟩
        (listD [dTextItem a, dTextItem b, dTextItem c, dTextItem d]) pt pv =
      some (⟨cs, fh, false, false⟩,
        arglistTag ++ escapeSpecialChars a ++ crTag ++
          (escapeSpecialChars b ++ crTag) ++
          (arglistTag ++ escapeSpecialChars c ++ crTag) ++
          (escapeSpecialChars d ++ crTag), false) := by
  have hkids : walkKids renderVisitor ⟨cs, fh, false, true⟩
      [dTextItem a, dTextItem b, dTextItem c, dTextItem d] .List none =
    some (⟨cs, fh, false, true⟩,
      (arglistTag ++ escapeSpecialChars a ++ crTag) ++
        ((escapeSpecialChars b ++ crTag) ++
          ((arglistTag ++ escapeSpecialChars c ++ crTag) ++
            ((escapeSpecialChars d ++ crTag) ++ []))), false) := by
    simp only [walkKids]
    simp [walk_dTextItem_term, walk_dTextItem_defn, dTextItem_ty]
  have h := walk_listD_gen [dTextItem a, dTextItem b, dTextItem c, dTextItem d]
    cs fh false il pt pv ⟨cs, fh, false, true⟩ _ hkids
  simpa [List.append_assoc] using h

/-- Entering a level-1 heading with the first-heading flag still false
emits the title header and raises the flag permanently. -/
theorem rn_h1_first (cs : List Nat) (dt il : Bool) (kids : List Node)
    (pt pv : Option NodeType) :
    RenderNode ⟨cs, false, dt, il⟩
        (.mk ⟨.Heading, [], 1, 0, false, []⟩ kids) true pt pv =
      some (⟨cs, true, dt, il⟩, titleHeader, .GoToNext) := by
  simp [RenderNode, Node.nodeType, Node.data]

/-- Entering a level-1 heading once the flag is true emits the top-level
section header and leaves the state unchanged. -/
theorem rn_h1_later (cs : List Nat) (dt il : Bool) (kids : List Node)
    (pt pv : Option NodeType) :
    RenderNode ⟨cs, true, dt, il⟩
        (.mk ⟨.Heading, [], 1, 0, false, []⟩ kids) true pt pv =
      some (⟨cs, true, dt, il⟩, topLevelHeader, .GoToNext) := by
  simp [RenderNode, Node.nodeType, Node.data]

/-- Walking the document's first level-1 heading from a fresh flag emits
the title header then the escaped heading text. -/
theorem walk_h1_first (cs : List Nat) (dt il : Bool) (t : List Nat)
    (pv : Option NodeType) :
    walkNode renderVisitor ⟨cs, false, dt, il⟩ (h1 t) (some .Document) pv =
      some (⟨cs, true, dt, il⟩,
        titleHeader ++ escapeSpecialChars t, false) := by
  simp [h1, walkNode, walkKids, renderVisitor, RenderNode, textN,
    Node.nodeType, Node.data, isContainer]

/-- Walking a later level-1 heading emits the top-level section header
then the escaped heading text. -/
theorem walk_h1_later (cs : List Nat) (dt il : Bool) (t : List Nat)
    (pv : Option NodeType) :
    walkNode renderVisitor ⟨cs, true, dt, il⟩ (h1 t) (some .Document) pv =
      some (⟨cs, true, dt, il⟩,
        topLevelHeader ++ escapeSpecialChars t, false) := by
  simp [h1, walkNode, walkKids, renderVisitor, RenderNode, textN,
    Node.nodeType, Node.data, isContainer]

/-- Once the first-heading flag is true, every further level-1 heading
in a row emits the section header, never the title header. -/
theorem walkKids_h1s (ts : List (List Nat)) :
    ∀ (cs : List Nat) (dt il : Bool) (pv : Option NodeType),
    walkKids renderVisitor ⟨cs, true, dt, il⟩ (ts.map h1) .Document pv =
      some (⟨cs, true, dt, il⟩,
        (ts.map (fun s => topLevelHeader ++ escapeSpecialChars s)).flatten,
        false) := by
  induction ts with
  | nil => intro cs dt il pv; simp [walkKids]
  | cons t ts ih =>
    intro cs dt il pv
    simp only [List.map_cons, walkKids]
    simp [walk_h1_later, h1_ty, ih cs dt il]

/-- The document node emits nothing at either edge. -/
theorem rn_doc_enter (r : roffRenderer) (kids : List Node) (e : Bool)
    (pt pv : Option NodeType) :
    RenderNode r (.mk ⟨.Document, [], 0, 0, false, []⟩ kids) e pt pv =
      some (r, [], .GoToNext) := by
  simp [RenderNode, Node.nodeType, Node.data]

/-- Composition: the document root contributes no output of its own. -/
theorem walk_doc_gen (kids : List Node) (s s2 : roffRenderer) (o : List Nat)
    (hkids : walkKids renderVisitor s kids .Document none = some (s2, o, false)) :
    walkNode renderVisitor s (docN kids) none none = some (s2, o, false) := by
  simp only [docN, walkNode]
  simp [renderVisitor, rn_doc_enter, hkids, isContainer, Node.nodeType, Node.data]

/-- Projection of the firstHeader flag out of a visit result; a faulting
visit has no resulting state and counts as preserved. -/
def fhOf : Option (roffRenderer × List Nat × WalkStatus) → Bool
  | some (r, _, _) => r.firstHeader
  | none => true

/-- C10: first-heading logic.  First conjunct: the firstHeader flag is
monotonic — RenderNode, the only function that writes renderer state,
never takes it back to false at any node, edge or context, so it never
resets during a render.  Second conjunct: rendering a document that is a
level-1 heading followed by any number of further level-1 headings emits
the title header exactly once, on the first heading, and the top-level
section header on every later one, and ends with the flag true. -/
theorem first_heading_title :
    (∀ (r : roffRenderer) (n : Node) (e : Bool) (pt pv : Option NodeType),
        r.firstHeader = true → fhOf (RenderNode r n e pt pv) = true) ∧
    (∀ (t : List Nat) (ts : List (List Nat)),
        renderDocument (docN (h1 t :: ts.map h1)) =
          some (⟨[], true, false, false⟩,
            titleHeader ++ escapeSpecialChars t ++
              (ts.map (fun s => topLevelHeader ++ escapeSpecialChars s)).flatten,
            false)) := by
  constructor
  · intro r n e pt pv h
    rcases n with ⟨⟨ty, lit, lv, fl, hd, ds⟩, kids⟩
    cases ty <;>
      simp only [RenderNode, Node.nodeType, Node.data] <;>
      (repeat' split) <;>
      simp_all [fhOf]
  · intro t ts
    have hkids : walkKids renderVisitor newRoffRenderer (h1 t :: ts.map h1)
        .Document none =
      some (⟨[], true, false, false⟩,
        titleHeader ++ escapeSpecialChars t ++
          (ts.map (fun s => topLevelHeader ++ escapeSpecialChars s)).flatten,
        false) := by
      simp only [walkKids, newRoffRenderer]
      simp [walk_h1_first, h1_ty, walkKids_h1s]
    exact walk_doc_gen _ _ _ _ hkids

/-- C10 witness: the monotonicity conjunct applied at a concrete state
with the flag already true and a concrete level-1 heading node. -/
theorem first_heading_title_witness :
    (⟨[], true, false, false⟩ : roffRenderer).firstHeader = true ∧
      fhOf (RenderNode ⟨[], true, false, false⟩ (h1 [97]) true none none) = true :=
  ⟨rfl, first_heading_title.1 ⟨[], true, false, false⟩ (h1 [97]) true none none rfl⟩
